import Mathlib

set_option maxRecDepth 8000

/- Shallow embedding of src/main.c: ten first-order Delta-Sigma modulator
channels (one output bit per channel per watchdog-timer tick) driven by
four cyclic colour-envelope sequencers.  Machine integers are modelled on
Nat with explicit moduli where the C arithmetic can wrap: req[] is
unsigned char (8-bit), sum[] and outBits are unsigned int (16-bit on the
MSP430). -/

namespace DeltaSigma

/-- Number of modulator channels (main.c line 63). -/
def N_CH : Nat := 10

/-- Envelope cadence exponent (main.c line 65). -/
def LOOP_SPEED : Nat := 6

/-- Resolution of channels 0..2 (main.c line 70). -/
def MAX_CH_0_2 : Nat := 200

/-- Resolution of channels 3..5 (main.c line 71). -/
def MAX_CH_3_5 : Nat := 200

/-- Resolution of channels 6..7 (main.c line 72). -/
def MAX_CH_6_7 : Nat := 100

/-- Resolution of channels 8..9 (main.c line 73). -/
def MAX_CH_8_9 : Nat := 150

/-- Steps per envelope segment for channels 0..2 (main.c line 75). -/
def STEPS_CH_0_2 : Nat := 100

/-- Per-step increment for channels 0..2 (main.c line 76, C integer division). -/
def INC_CH_0_2 : Nat := MAX_CH_0_2 / STEPS_CH_0_2

/-- Steps per envelope segment for channels 3..5 (main.c line 78). -/
def STEPS_CH_3_5 : Nat := 100

/-- Per-step increment for channels 3..5 (main.c line 79). -/
def INC_CH_3_5 : Nat := MAX_CH_3_5 / STEPS_CH_3_5

/-- Steps per envelope segment for channels 6..7 (main.c line 81). -/
def STEPS_CH_6_7 : Nat := 50

/-- Per-step increment for channels 6..7 (main.c line 82). -/
def INC_CH_6_7 : Nat := MAX_CH_6_7 / STEPS_CH_6_7

/-- Steps per envelope segment for channels 8..9 (main.c line 84). -/
def STEPS_CH_8_9 : Nat := 150

/-- Per-step increment for channels 8..9 (main.c line 85). -/
def INC_CH_8_9 : Nat := MAX_CH_8_9 / STEPS_CH_8_9

/-- Modulus of the 8-bit unsigned char req[] storage. -/
def UCHAR_MOD : Nat := 256

/-- Modulus of 16-bit unsigned int arithmetic (MSP430). -/
def UINT_MOD : Nat := 65536

/-- The global mutable state of main.c: the req[10] array (unsigned char),
the sum[10] integrator array and outBits (unsigned int), the four static
stCnt envelope phase counters of the calc_CH functions, and main's intCnt
tick counter. -/
structure Sys where
  r0 : Nat
  r1 : Nat
  r2 : Nat
  r3 : Nat
  r4 : Nat
  r5 : Nat
  r6 : Nat
  r7 : Nat
  r8 : Nat
  r9 : Nat
  s0 : Nat
  s1 : Nat
  s2 : Nat
  s3 : Nat
  s4 : Nat
  s5 : Nat
  s6 : Nat
  s7 : Nat
  s8 : Nat
  s9 : Nat
  outBits : Nat
  st0 : Nat
  st3 : Nat
  st6 : Nat
  st8 : Nat
  intCnt : Nat
deriving DecidableEq

/-- Read req[n]. -/
def reqOf (s : Sys) (n : Fin 10) : Nat :=
  match n.1 with
  | 0 => s.r0
  | 1 => s.r1
  | 2 => s.r2
  | 3 => s.r3
  | 4 => s.r4
  | 5 => s.r5
  | 6 => s.r6
  | 7 => s.r7
  | 8 => s.r8
  | _ => s.r9

/-- Read sum[n]. -/
def sumOf (s : Sys) (n : Fin 10) : Nat :=
  match n.1 with
  | 0 => s.s0
  | 1 => s.s1
  | 2 => s.s2
  | 3 => s.s3
  | 4 => s.s4
  | 5 => s.s5
  | 6 => s.s6
  | 7 => s.s7
  | 8 => s.s8
  | _ => s.s9

/-- Write sum[n]. -/
def setSum (s : Sys) (n : Fin 10) (v : Nat) : Sys :=
  match n.1 with
  | 0 => { s with s0 := v }
  | 1 => { s with s1 := v }
  | 2 => { s with s2 := v }
  | 3 => { s with s3 := v }
  | 4 => { s with s4 := v }
  | 5 => { s with s5 := v }
  | 6 => { s with s6 := v }
  | 7 => { s with s7 := v }
  | 8 => { s with s8 := v }
  | _ => { s with s9 := v }

/-- The max[] array as written once by init_all_CH_arrays (main.c lines
151-160); it is never written again, so it is embedded as a constant. -/
def maxCh (n : Fin 10) : Nat :=
  match n.1 with
  | 0 => MAX_CH_0_2
  | 1 => MAX_CH_0_2
  | 2 => MAX_CH_0_2
  | 3 => MAX_CH_3_5
  | 4 => MAX_CH_3_5
  | 5 => MAX_CH_3_5
  | 6 => MAX_CH_6_7
  | 7 => MAX_CH_6_7
  | 8 => MAX_CH_8_9
  | _ => MAX_CH_8_9

/-- Body of the calc_output_bits loop for one channel n (main.c lines
264-270): outBits is shifted, sum[n] += req[n] (16-bit), then either the
new LSB of outBits is set (bit 1) or resolution is paid down (bit 0). -/
def chanStep (s : Sys) (n : Fin 10) : Sys :=
  let s1 : Sys := { s with outBits := s.outBits * 2 % UINT_MOD }
  let s2 : Sys := setSum s1 n ((sumOf s1 n + reqOf s1 n) % UINT_MOD)
  if sumOf s2 n < maxCh n then
    { s2 with outBits := (s2.outBits + 1) % UINT_MOD }
  else
    setSum s2 n (sumOf s2 n - maxCh n)

/-- The channel order of the calc_output_bits for-loop: n from N_CH-1 down
to 0 (main.c line 263). -/
def chOrder : List (Fin 10) := [9, 8, 7, 6, 5, 4, 3, 2, 1, 0]

/-- calc_output_bits (main.c lines 257-272): one modulator step for every
channel, processed from channel 9 down to channel 0. -/
def calc_output_bits (s : Sys) : Sys :=
  chOrder.foldl chanStep s

/-- calc_output_bits instrumented with the per-channel output bit each
channel contributes (bit 1 exactly when the branch at main.c line 267 is
taken for that channel). -/
def chanStepB (x : Sys × (Fin 10 → Bool)) (n : Fin 10) : Sys × (Fin 10 → Bool) :=
  (chanStep x.1 n,
   Function.update x.2 n (decide ((sumOf x.1 n + reqOf x.1 n) % UINT_MOD < maxCh n)))

/-- Run the modulator loop over an arbitrary channel order, returning the
final state together with the per-channel output bits. -/
def runB (s : Sys) (l : List (Fin 10)) : Sys × (Fin 10 → Bool) :=
  l.foldl chanStepB (s, fun _ => false)

/-- calc_CH_0_TO_2 (main.c lines 177-197) acting on its frame
(stCnt, req[0], req[1], req[2]); req arithmetic is 8-bit. -/
def calc_CH_0_TO_2_core : Nat × Nat × Nat × Nat → Nat × Nat × Nat × Nat :=
  fun x =>
    let st := x.1
    let r0 := x.2.1
    let r1 := x.2.2.1
    let r2 := x.2.2.2
    let r1 := if 0 * STEPS_CH_0_2 ≤ st ∧ st < 1 * STEPS_CH_0_2 then
      (r1 + INC_CH_0_2) % UCHAR_MOD else r1
    let r0 := if 1 * STEPS_CH_0_2 ≤ st ∧ st < 2 * STEPS_CH_0_2 then
      (r0 + (UCHAR_MOD - INC_CH_0_2)) % UCHAR_MOD else r0
    let r2 := if 2 * STEPS_CH_0_2 ≤ st ∧ st < 3 * STEPS_CH_0_2 then
      (r2 + INC_CH_0_2) % UCHAR_MOD else r2
    let r1 := if 3 * STEPS_CH_0_2 ≤ st ∧ st < 4 * STEPS_CH_0_2 then
      (r1 + (UCHAR_MOD - INC_CH_0_2)) % UCHAR_MOD else r1
    let r0 := if 4 * STEPS_CH_0_2 ≤ st ∧ st < 5 * STEPS_CH_0_2 then
      (r0 + INC_CH_0_2) % UCHAR_MOD else r0
    let r2 := if 5 * STEPS_CH_0_2 ≤ st ∧ st < 6 * STEPS_CH_0_2 then
      (r2 + (UCHAR_MOD - INC_CH_0_2)) % UCHAR_MOD else r2
    let st := st + 1
    let st := if 6 * STEPS_CH_0_2 ≤ st then 0 else st
    (st, r0, r1, r2)

/-- calc_CH_3_TO_5 (main.c lines 199-219) acting on its frame
(stCnt, req[3], req[4], req[5]). -/
def calc_CH_3_TO_5_core : Nat × Nat × Nat × Nat → Nat × Nat × Nat × Nat :=
  fun x =>
    let st := x.1
    let r3 := x.2.1
    let r4 := x.2.2.1
    let r5 := x.2.2.2
    let r4 := if 0 * STEPS_CH_3_5 ≤ st ∧ st < 1 * STEPS_CH_3_5 then
      (r4 + INC_CH_3_5) % UCHAR_MOD else r4
    let r3 := if 1 * STEPS_CH_3_5 ≤ st ∧ st < 2 * STEPS_CH_3_5 then
      (r3 + (UCHAR_MOD - INC_CH_3_5)) % UCHAR_MOD else r3
    let r5 := if 2 * STEPS_CH_3_5 ≤ st ∧ st < 3 * STEPS_CH_3_5 then
      (r5 + INC_CH_3_5) % UCHAR_MOD else r5
    let r4 := if 3 * STEPS_CH_3_5 ≤ st ∧ st < 4 * STEPS_CH_3_5 then
      (r4 + (UCHAR_MOD - INC_CH_3_5)) % UCHAR_MOD else r4
    let r3 := if 4 * STEPS_CH_3_5 ≤ st ∧ st < 5 * STEPS_CH_3_5 then
      (r3 + INC_CH_3_5) % UCHAR_MOD else r3
    let r5 := if 5 * STEPS_CH_3_5 ≤ st ∧ st < 6 * STEPS_CH_3_5 then
      (r5 + (UCHAR_MOD - INC_CH_3_5)) % UCHAR_MOD else r5
    let st := st + 1
    let st := if 6 * STEPS_CH_3_5 ≤ st then 0 else st
    (st, r3, r4, r5)

/-- calc_CH_6_TO_7 (main.c lines 221-237) acting on its frame
(stCnt, req[6], req[7]). -/
def calc_CH_6_TO_7_core : Nat × Nat × Nat → Nat × Nat × Nat :=
  fun x =>
    let st := x.1
    let r6 := x.2.1
    let r7 := x.2.2
    let r7 := if 0 * STEPS_CH_6_7 ≤ st ∧ st < 1 * STEPS_CH_6_7 then
      (r7 + INC_CH_6_7) % UCHAR_MOD else r7
    let r6 := if 1 * STEPS_CH_6_7 ≤ st ∧ st < 2 * STEPS_CH_6_7 then
      (r6 + INC_CH_6_7) % UCHAR_MOD else r6
    let r7 := if 2 * STEPS_CH_6_7 ≤ st ∧ st < 3 * STEPS_CH_6_7 then
      (r7 + (UCHAR_MOD - INC_CH_6_7)) % UCHAR_MOD else r7
    let r6 := if 3 * STEPS_CH_6_7 ≤ st ∧ st < 4 * STEPS_CH_6_7 then
      (r6 + (UCHAR_MOD - INC_CH_6_7)) % UCHAR_MOD else r6
    let st := st + 1
    let st := if 4 * STEPS_CH_6_7 ≤ st then 0 else st
    (st, r6, r7)

/-- calc_CH_8_TO_9 (main.c lines 239-255) acting on its frame
(stCnt, req[8], req[9]). -/
def calc_CH_8_TO_9_core : Nat × Nat × Nat → Nat × Nat × Nat :=
  fun x =>
    let st := x.1
    let r8 := x.2.1
    let r9 := x.2.2
    let r9 := if 0 * STEPS_CH_8_9 ≤ st ∧ st < 1 * STEPS_CH_8_9 then
      (r9 + INC_CH_8_9) % UCHAR_MOD else r9
    let r8 := if 1 * STEPS_CH_8_9 ≤ st ∧ st < 2 * STEPS_CH_8_9 then
      (r8 + INC_CH_8_9) % UCHAR_MOD else r8
    let r9 := if 2 * STEPS_CH_8_9 ≤ st ∧ st < 3 * STEPS_CH_8_9 then
      (r9 + (UCHAR_MOD - INC_CH_8_9)) % UCHAR_MOD else r9
    let r8 := if 3 * STEPS_CH_8_9 ≤ st ∧ st < 4 * STEPS_CH_8_9 then
      (r8 + (UCHAR_MOD - INC_CH_8_9)) % UCHAR_MOD else r8
    let st := st + 1
    let st := if 4 * STEPS_CH_8_9 ≤ st then 0 else st
    (st, r8, r9)

/-- calc_CH_0_TO_2 on the full state. -/
def calc_CH_0_TO_2 (s : Sys) : Sys :=
  let y := calc_CH_0_TO_2_core (s.st0, s.r0, s.r1, s.r2)
  { s with st0 := y.1, r0 := y.2.1, r1 := y.2.2.1, r2 := y.2.2.2 }

/-- calc_CH_3_TO_5 on the full state. -/
def calc_CH_3_TO_5 (s : Sys) : Sys :=
  let y := calc_CH_3_TO_5_core (s.st3, s.r3, s.r4, s.r5)
  { s with st3 := y.1, r3 := y.2.1, r4 := y.2.2.1, r5 := y.2.2.2 }

/-- calc_CH_6_TO_7 on the full state. -/
def calc_CH_6_TO_7 (s : Sys) : Sys :=
  let y := calc_CH_6_TO_7_core (s.st6, s.r6, s.r7)
  { s with st6 := y.1, r6 := y.2.1, r7 := y.2.2 }

/-- calc_CH_8_TO_9 on the full state. -/
def calc_CH_8_TO_9 (s : Sys) : Sys :=
  let y := calc_CH_8_TO_9_core (s.st8, s.r8, s.r9)
  { s with st8 := y.1, r8 := y.2.1, r9 := y.2.2 }

/-- One iteration of the infinite main loop, i.e. the work done for one
watchdog-timer tick (main.c lines 133-144): the counter is incremented and
bit LOOP_SPEED of it is tested; when set, the counter is cleared and all
four envelope sequencers run; calc_output_bits runs on every tick. -/
def tick (s : Sys) : Sys :=
  if (s.intCnt + 1) &&& (1 <<< LOOP_SPEED) ≠ 0 then
    calc_output_bits (calc_CH_8_TO_9 (calc_CH_6_TO_7 (calc_CH_3_TO_5
      (calc_CH_0_TO_2 { s with intCnt := 0 }))))
  else
    calc_output_bits { s with intCnt := s.intCnt + 1 }

/-- The envelope stage of one tick in isolation: the four sequencer calls
when the bit-test of main.c line 136 fires, the identity otherwise. -/
def envStage (s : Sys) : Sys :=
  if (s.intCnt + 1) &&& (1 <<< LOOP_SPEED) ≠ 0 then
    calc_CH_8_TO_9 (calc_CH_6_TO_7 (calc_CH_3_TO_5 (calc_CH_0_TO_2 s)))
  else s

/-- State after start-up: C globals are zero-initialised (sum[], outBits),
req[] and the static stCnt initialisers are as in init_all_CH_arrays
(main.c lines 147-175) and the calc_CH functions (lines 181, 203, 225,
243); the tick counter is taken as 0 as the claims assume. -/
def initSys : Sys where
  r0 := MAX_CH_0_2
  r1 := 0
  r2 := 0
  r3 := 0
  r4 := MAX_CH_3_5
  r5 := MAX_CH_3_5
  r6 := 0
  r7 := 0
  r8 := MAX_CH_8_9
  r9 := MAX_CH_8_9
  s0 := 0
  s1 := 0
  s2 := 0
  s3 := 0
  s4 := 0
  s5 := 0
  s6 := 0
  s7 := 0
  s8 := 0
  s9 := 0
  outBits := 0
  st0 := 0
  st3 := 3 * STEPS_CH_3_5
  st6 := 0
  st8 := 2 * STEPS_CH_8_9
  intCnt := 0

/-- States reachable from start-up by any interleaving of the envelope
advance operations, the modulator step, and whole orchestrator ticks. -/
inductive Reachable : Sys → Prop
  | init : Reachable initSys
  | adv02 {s : Sys} : Reachable s → Reachable (calc_CH_0_TO_2 s)
  | adv35 {s : Sys} : Reachable s → Reachable (calc_CH_3_TO_5 s)
  | adv67 {s : Sys} : Reachable s → Reachable (calc_CH_6_TO_7 s)
  | adv89 {s : Sys} : Reachable s → Reachable (calc_CH_8_TO_9 s)
  | modStep {s : Sys} : Reachable s → Reachable (calc_output_bits s)
  | loop {s : Sys} : Reachable s → Reachable (tick s)

/-- One step of the synthetic-division modulator for a single channel
(main.c lines 266-270 in scalar form): returns the output bit and the new
accumulator. -/
def dsStep (maxv rq acc : Nat) : Bool × Nat :=
  let a := (acc + rq) % UINT_MOD
  if a < maxv then (true, a) else (false, a - maxv)

/-- Iterate dsStep with a constant requested level: over k steps from a
given accumulator, return the number of 1-bits emitted and the final
accumulator. -/
def dsOnes (maxv rq : Nat) : Nat → Nat → Nat × Nat
  | acc, 0 => (0, acc)
  | acc, Nat.succ k =>
    let b := dsStep maxv rq acc
    let rest := dsOnes maxv rq b.2 k
    ((if b.1 then 1 else 0) + rest.1, rest.2)

/-- Closed form of req[0] (red) along the group 0-2 envelope cycle, as a
function of the phase counter. -/
def R02red (p : Nat) : Nat :=
  if p < 100 then 200
  else if p < 200 then 200 - 2 * (p - 100)
  else if p < 400 then 0
  else if p < 500 then 2 * (p - 400)
  else 200

/-- Closed form of req[1] (green) along the group 0-2 envelope cycle. -/
def R02grn (p : Nat) : Nat :=
  if p < 100 then 2 * p
  else if p < 300 then 200
  else if p < 400 then 200 - 2 * (p - 300)
  else 0

/-- Closed form of req[2] (blue) along the group 0-2 envelope cycle. -/
def R02blu (p : Nat) : Nat :=
  if p < 200 then 0
  else if p < 300 then 2 * (p - 200)
  else if p < 500 then 200
  else 200 - 2 * (p - 500)

/-- Closed form of req[6] (red) along the group 6-7 envelope cycle. -/
def R67red (p : Nat) : Nat :=
  if p < 50 then 0
  else if p < 100 then 2 * (p - 50)
  else if p < 150 then 100
  else 100 - 2 * (p - 150)

/-- Closed form of req[7] (green) along the group 6-7 envelope cycle. -/
def R67grn (p : Nat) : Nat :=
  if p < 50 then 2 * p
  else if p < 100 then 100
  else if p < 150 then 100 - 2 * (p - 100)
  else 0

/-- Closed form of req[8] (red) along the group 8-9 envelope cycle. -/
def R89red (p : Nat) : Nat :=
  if p < 150 then 0
  else if p < 300 then p - 150
  else if p < 450 then 150
  else 150 - (p - 450)

/-- Closed form of req[9] (green) along the group 8-9 envelope cycle. -/
def R89grn (p : Nat) : Nat :=
  if p < 150 then p
  else if p < 300 then 150
  else if p < 450 then 150 - (p - 300)
  else 0

/-- System invariant: every envelope group sits on its closed-form cycle,
and every integrator is strictly below its resolution. -/
def Inv (s : Sys) : Prop :=
  s.st0 < 600 ∧ s.r0 = R02red s.st0 ∧ s.r1 = R02grn s.st0 ∧ s.r2 = R02blu s.st0 ∧
  s.st3 < 600 ∧ s.r3 = R02red s.st3 ∧ s.r4 = R02grn s.st3 ∧ s.r5 = R02blu s.st3 ∧
  s.st6 < 200 ∧ s.r6 = R67red s.st6 ∧ s.r7 = R67grn s.st6 ∧
  s.st8 < 600 ∧ s.r8 = R89red s.st8 ∧ s.r9 = R89grn s.st8 ∧
  (∀ n : Fin 10, sumOf s n < maxCh n)

/-- Scalar projection of the tick counter update of main.c line 136. -/
def cstep (c : Nat) : Nat :=
  if (c + 1) &&& (1 <<< LOOP_SPEED) ≠ 0 then 0 else c + 1

/-- The tick counter trajectory from 0. -/
def cIter : Nat → Nat
  | 0 => 0
  | Nat.succ k => cstep (cIter k)

/-- All fields not owned by the modulator loop coincide: req[], the four
phase counters, and the tick counter. -/
def PresEq (a b : Sys) : Prop :=
  a.r0 = b.r0 ∧ a.r1 = b.r1 ∧ a.r2 = b.r2 ∧ a.r3 = b.r3 ∧ a.r4 = b.r4 ∧
  a.r5 = b.r5 ∧ a.r6 = b.r6 ∧ a.r7 = b.r7 ∧ a.r8 = b.r8 ∧ a.r9 = b.r9 ∧
  a.st0 = b.st0 ∧ a.st3 = b.st3 ∧ a.st6 = b.st6 ∧ a.st8 = b.st8 ∧
  a.intCnt = b.intCnt

/-- chanStep at channel 0, written out. -/
theorem chanStep_eq_0 (s : Sys) (h : 0 < 10) :
    chanStep s ⟨0, h⟩ =
      (if (s.s0 + s.r0) % UINT_MOD < MAX_CH_0_2
       then { s with outBits := (s.outBits * 2 % UINT_MOD + 1) % UINT_MOD,
                     s0 := (s.s0 + s.r0) % UINT_MOD }
       else { s with outBits := s.outBits * 2 % UINT_MOD,
                     s0 := (s.s0 + s.r0) % UINT_MOD - MAX_CH_0_2 }) := rfl

/-- chanStep at channel 1, written out. -/
theorem chanStep_eq_1 (s : Sys) (h : 1 < 10) :
    chanStep s ⟨1, h⟩ =
      (if (s.s1 + s.r1) % UINT_MOD < MAX_CH_0_2
       then { s with outBits := (s.outBits * 2 % UINT_MOD + 1) % UINT_MOD,
                     s1 := (s.s1 + s.r1) % UINT_MOD }
       else { s with outBits := s.outBits * 2 % UINT_MOD,
                     s1 := (s.s1 + s.r1) % UINT_MOD - MAX_CH_0_2 }) := rfl

/-- chanStep at channel 2, written out. -/
theorem chanStep_eq_2 (s : Sys) (h : 2 < 10) :
    chanStep s ⟨2, h⟩ =
      (if (s.s2 + s.r2) % UINT_MOD < MAX_CH_0_2
       then { s with outBits := (s.outBits * 2 % UINT_MOD + 1) % UINT_MOD,
                     s2 := (s.s2 + s.r2) % UINT_MOD }
       else { s with outBits := s.outBits * 2 % UINT_MOD,
                     s2 := (s.s2 + s.r2) % UINT_MOD - MAX_CH_0_2 }) := rfl

/-- chanStep at channel 3, written out. -/
theorem chanStep_eq_3 (s : Sys) (h : 3 < 10) :
    chanStep s ⟨3, h⟩ =
      (if (s.s3 + s.r3) % UINT_MOD < MAX_CH_3_5
       then { s with outBits := (s.outBits * 2 % UINT_MOD + 1) % UINT_MOD,
                     s3 := (s.s3 + s.r3) % UINT_MOD }
       else { s with outBits := s.outBits * 2 % UINT_MOD,
                     s3 := (s.s3 + s.r3) % UINT_MOD - MAX_CH_3_5 }) := rfl

/-- chanStep at channel 4, written out. -/
theorem chanStep_eq_4 (s : Sys) (h : 4 < 10) :
    chanStep s ⟨4, h⟩ =
      (if (s.s4 + s.r4) % UINT_MOD < MAX_CH_3_5
       then { s with outBits := (s.outBits * 2 % UINT_MOD + 1) % UINT_MOD,
                     s4 := (s.s4 + s.r4) % UINT_MOD }
       else { s with outBits := s.outBits * 2 % UINT_MOD,
                     s4 := (s.s4 + s.r4) % UINT_MOD - MAX_CH_3_5 }) := rfl

/-- chanStep at channel 5, written out. -/
theorem chanStep_eq_5 (s : Sys) (h : 5 < 10) :
    chanStep s ⟨5, h⟩ =
      (if (s.s5 + s.r5) % UINT_MOD < MAX_CH_3_5
       then { s with outBits := (s.outBits * 2 % UINT_MOD + 1) % UINT_MOD,
                     s5 := (s.s5 + s.r5) % UINT_MOD }
       else { s with outBits := s.outBits * 2 % UINT_MOD,
                     s5 := (s.s5 + s.r5) % UINT_MOD - MAX_CH_3_5 }) := rfl

/-- chanStep at channel 6, written out. -/
theorem chanStep_eq_6 (s : Sys) (h : 6 < 10) :
    chanStep s ⟨6, h⟩ =
      (if (s.s6 + s.r6) % UINT_MOD < MAX_CH_6_7
       then { s with outBits := (s.outBits * 2 % UINT_MOD + 1) % UINT_MOD,
                     s6 := (s.s6 + s.r6) % UINT_MOD }
       else { s with outBits := s.outBits * 2 % UINT_MOD,
                     s6 := (s.s6 + s.r6) % UINT_MOD - MAX_CH_6_7 }) := rfl

/-- chanStep at channel 7, written out. -/
theorem chanStep_eq_7 (s : Sys) (h : 7 < 10) :
    chanStep s ⟨7, h⟩ =
      (if (s.s7 + s.r7) % UINT_MOD < MAX_CH_6_7
       then { s with outBits := (s.outBits * 2 % UINT_MOD + 1) % UINT_MOD,
                     s7 := (s.s7 + s.r7) % UINT_MOD }
       else { s with outBits := s.outBits * 2 % UINT_MOD,
                     s7 := (s.s7 + s.r7) % UINT_MOD - MAX_CH_6_7 }) := rfl

/-- chanStep at channel 8, written out. -/
theorem chanStep_eq_8 (s : Sys) (h : 8 < 10) :
    chanStep s ⟨8, h⟩ =
      (if (s.s8 + s.r8) % UINT_MOD < MAX_CH_8_9
       then { s with outBits := (s.outBits * 2 % UINT_MOD + 1) % UINT_MOD,
                     s8 := (s.s8 + s.r8) % UINT_MOD }
       else { s with outBits := s.outBits * 2 % UINT_MOD,
                     s8 := (s.s8 + s.r8) % UINT_MOD - MAX_CH_8_9 }) := rfl

/-- chanStep at channel 9, written out. -/
theorem chanStep_eq_9 (s : Sys) (h : 9 < 10) :
    chanStep s ⟨9, h⟩ =
      (if (s.s9 + s.r9) % UINT_MOD < MAX_CH_8_9
       then { s with outBits := (s.outBits * 2 % UINT_MOD + 1) % UINT_MOD,
                     s9 := (s.s9 + s.r9) % UINT_MOD }
       else { s with outBits := s.outBits * 2 % UINT_MOD,
                     s9 := (s.s9 + s.r9) % UINT_MOD - MAX_CH_8_9 }) := rfl

theorem presEq_refl (a : Sys) : PresEq a a :=
  ⟨rfl, rfl, rfl, rfl, rfl, rfl, rfl, rfl, rfl, rfl, rfl, rfl, rfl, rfl, rfl⟩

theorem presEq_trans {a b c : Sys} (h1 : PresEq a b) (h2 : PresEq b c) : PresEq a c := by
  obtain ⟨e1, e2, e3, e4, e5, e6, e7, e8, e9, e10, e11, e12, e13, e14, e15⟩ := h1
  obtain ⟨f1, f2, f3, f4, f5, f6, f7, f8, f9, f10, f11, f12, f13, f14, f15⟩ := h2
  exact ⟨e1.trans f1, e2.trans f2, e3.trans f3, e4.trans f4, e5.trans f5,
    e6.trans f6, e7.trans f7, e8.trans f8, e9.trans f9, e10.trans f10,
    e11.trans f11, e12.trans f12, e13.trans f13, e14.trans f14, e15.trans f15⟩

theorem presEq_reqOf {a b : Sys} (h : PresEq a b) (m : Fin 10) : reqOf a m = reqOf b m := by
  obtain ⟨e1, e2, e3, e4, e5, e6, e7, e8, e9, e10, e11, e12, e13, e14, e15⟩ := h
  fin_cases m <;> assumption

theorem chanStep_pres (s : Sys) (n : Fin 10) : PresEq (chanStep s n) s := by
  obtain ⟨v, hv⟩ := n
  interval_cases v <;>
    (first
      | rw [chanStep_eq_0] | rw [chanStep_eq_1] | rw [chanStep_eq_2]
      | rw [chanStep_eq_3] | rw [chanStep_eq_4] | rw [chanStep_eq_5]
      | rw [chanStep_eq_6] | rw [chanStep_eq_7] | rw [chanStep_eq_8]
      | rw [chanStep_eq_9]) <;>
    split <;>
    exact ⟨rfl, rfl, rfl, rfl, rfl, rfl, rfl, rfl, rfl, rfl, rfl, rfl, rfl, rfl, rfl⟩

theorem foldl_chanStep_pres (l : List (Fin 10)) : ∀ s : Sys, PresEq (l.foldl chanStep s) s := by
  induction l with
  | nil => exact fun s => presEq_refl s
  | cons a t ih =>
    intro s
    exact presEq_trans (ih (chanStep s a)) (chanStep_pres s a)

theorem calc_output_bits_pres (s : Sys) : PresEq (calc_output_bits s) s :=
  foldl_chanStep_pres chOrder s

theorem chanStep_sum_self (s : Sys) (n : Fin 10) :
    sumOf (chanStep s n) n =
      (if (sumOf s n + reqOf s n) % UINT_MOD < maxCh n
       then (sumOf s n + reqOf s n) % UINT_MOD
       else (sumOf s n + reqOf s n) % UINT_MOD - maxCh n) := by
  obtain ⟨v, hv⟩ := n
  interval_cases v <;>
    (first
      | rw [chanStep_eq_0] | rw [chanStep_eq_1] | rw [chanStep_eq_2]
      | rw [chanStep_eq_3] | rw [chanStep_eq_4] | rw [chanStep_eq_5]
      | rw [chanStep_eq_6] | rw [chanStep_eq_7] | rw [chanStep_eq_8]
      | rw [chanStep_eq_9]) <;>
    split <;> rename_i hcond <;> simp [sumOf, reqOf, maxCh, hcond]

theorem chanStep_sum_ne (s : Sys) {n m : Fin 10} (h : n ≠ m) :
    sumOf (chanStep s n) m = sumOf s m := by
  obtain ⟨v, hv⟩ := n
  interval_cases v <;>
    (first
      | rw [chanStep_eq_0] | rw [chanStep_eq_1] | rw [chanStep_eq_2]
      | rw [chanStep_eq_3] | rw [chanStep_eq_4] | rw [chanStep_eq_5]
      | rw [chanStep_eq_6] | rw [chanStep_eq_7] | rw [chanStep_eq_8]
      | rw [chanStep_eq_9]) <;>
    split <;> fin_cases m <;> first | rfl | exact absurd rfl h


theorem foldl_sum_not_mem (l : List (Fin 10)) :
    ∀ (s : Sys) (m : Fin 10), m ∉ l → sumOf (l.foldl chanStep s) m = sumOf s m := by
  induction l with
  | nil => intro s m _; rfl
  | cons a t ih =>
    intro s m hm
    have hne : a ≠ m := fun he => hm (he ▸ List.mem_cons_self a t)
    have hmt : m ∉ t := fun ht => hm (List.mem_cons_of_mem a ht)
    rw [List.foldl_cons, ih (chanStep s a) m hmt, chanStep_sum_ne s hne]

theorem foldl_sum_count_one (l : List (Fin 10)) :
    ∀ (s : Sys) (m : Fin 10), l.count m = 1 →
      sumOf (l.foldl chanStep s) m = sumOf (chanStep s m) m := by
  induction l with
  | nil => intro s m h; simp [List.count_nil] at h
  | cons a t ih =>
    intro s m h
    rw [List.foldl_cons]
    by_cases ham : a = m
    · subst ham
      have hc : t.count a = 0 := by
        have := List.count_cons_self a t
        omega
      exact foldl_sum_not_mem t (chanStep s a) a (List.count_eq_zero.mp hc)
    · have hc : t.count m = 1 := by
        rw [List.count_cons] at h
        simpa [ham] using h
      rw [ih (chanStep s a) m hc, chanStep_sum_self, chanStep_sum_self,
        chanStep_sum_ne s ham, presEq_reqOf (chanStep_pres s a) m]

theorem chanStepB_pair (s : Sys) (b : Fin 10 → Bool) (a : Fin 10) :
    chanStepB (s, b) a = (chanStep s a, Function.update b a
      (decide ((sumOf s a + reqOf s a) % UINT_MOD < maxCh a))) := rfl

theorem foldlB_fst (l : List (Fin 10)) :
    ∀ (s : Sys) (b : Fin 10 → Bool), (l.foldl chanStepB (s, b)).1 = l.foldl chanStep s := by
  induction l with
  | nil => intro s b; rfl
  | cons a t ih =>
    intro s b
    rw [List.foldl_cons, List.foldl_cons]
    exact ih (chanStep s a) (Function.update b a
      (decide ((sumOf s a + reqOf s a) % UINT_MOD < maxCh a)))

theorem foldlB_bits_not_mem (l : List (Fin 10)) :
    ∀ (s : Sys) (b : Fin 10 → Bool) (m : Fin 10), m ∉ l →
      (l.foldl chanStepB (s, b)).2 m = b m := by
  induction l with
  | nil => intro s b m _; rfl
  | cons a t ih =>
    intro s b m hm
    have hne : m ≠ a := fun he => hm (he ▸ List.mem_cons_self a t)
    have hmt : m ∉ t := fun ht => hm (List.mem_cons_of_mem a ht)
    rw [List.foldl_cons, chanStepB_pair]
    have := ih (chanStep s a) (Function.update b a
      (decide ((sumOf s a + reqOf s a) % UINT_MOD < maxCh a))) m hmt
    rw [this, Function.update_noteq hne]

theorem foldlB_bits_count_one (l : List (Fin 10)) :
    ∀ (s : Sys) (b : Fin 10 → Bool) (m : Fin 10), l.count m = 1 →
      (l.foldl chanStepB (s, b)).2 m =
        decide ((sumOf s m + reqOf s m) % UINT_MOD < maxCh m) := by
  induction l with
  | nil => intro s b m h; simp [List.count_nil] at h
  | cons a t ih =>
    intro s b m h
    rw [List.foldl_cons]
    by_cases ham : a = m
    · subst ham
      have hc : t.count a = 0 := by
        have := List.count_cons_self a t
        omega
      have hnm : a ∉ t := List.count_eq_zero.mp hc
      have := foldlB_bits_not_mem t (chanStep s a) (Function.update b a
        (decide ((sumOf s a + reqOf s a) % UINT_MOD < maxCh a))) a hnm
      rw [chanStepB_pair, this, Function.update_same]
    · have hc : t.count m = 1 := by
        rw [List.count_cons] at h
        simpa [ham] using h
      have := ih (chanStep s a) (Function.update b a
        (decide ((sumOf s a + reqOf s a) % UINT_MOD < maxCh a))) m hc
      rw [chanStepB_pair, this, chanStep_sum_ne s ham, presEq_reqOf (chanStep_pres s a) m]

theorem chOrder_count : ∀ m : Fin 10, chOrder.count m = 1 := by decide

theorem calc_output_bits_sum (s : Sys) (m : Fin 10) :
    sumOf (calc_output_bits s) m =
      (if (sumOf s m + reqOf s m) % UINT_MOD < maxCh m
       then (sumOf s m + reqOf s m) % UINT_MOD
       else (sumOf s m + reqOf s m) % UINT_MOD - maxCh m) := by
  rw [calc_output_bits, foldl_sum_count_one chOrder s m (chOrder_count m), chanStep_sum_self]


theorem step02 : ∀ p : Nat, p < 600 →
    calc_CH_0_TO_2_core (p, R02red p, R02grn p, R02blu p) =
      ((p + 1) % 600, R02red ((p + 1) % 600), R02grn ((p + 1) % 600), R02blu ((p + 1) % 600)) := by
  decide

theorem step35 : ∀ p : Nat, p < 600 →
    calc_CH_3_TO_5_core (p, R02red p, R02grn p, R02blu p) =
      ((p + 1) % 600, R02red ((p + 1) % 600), R02grn ((p + 1) % 600), R02blu ((p + 1) % 600)) := by
  decide

theorem step67 : ∀ p : Nat, p < 200 →
    calc_CH_6_TO_7_core (p, R67red p, R67grn p) =
      ((p + 1) % 200, R67red ((p + 1) % 200), R67grn ((p + 1) % 200)) := by
  decide

theorem step89 : ∀ p : Nat, p < 600 →
    calc_CH_8_TO_9_core (p, R89red p, R89grn p) =
      ((p + 1) % 600, R89red ((p + 1) % 600), R89grn ((p + 1) % 600)) := by
  decide

theorem R02red_le (p : Nat) : R02red p ≤ 200 := by
  unfold R02red; split_ifs <;> omega

theorem R02grn_le (p : Nat) : R02grn p ≤ 200 := by
  unfold R02grn; split_ifs <;> omega

theorem R02blu_le (p : Nat) : R02blu p ≤ 200 := by
  unfold R02blu; split_ifs <;> omega

theorem R67red_le (p : Nat) : R67red p ≤ 100 := by
  unfold R67red; split_ifs <;> omega

theorem R67grn_le (p : Nat) : R67grn p ≤ 100 := by
  unfold R67grn; split_ifs <;> omega

theorem R89red_le (p : Nat) : R89red p ≤ 150 := by
  unfold R89red; split_ifs <;> omega

theorem R89grn_le (p : Nat) : R89grn p ≤ 150 := by
  unfold R89grn; split_ifs <;> omega

theorem maxCh_le (n : Fin 10) : maxCh n ≤ 200 := by fin_cases n <;> decide

theorem maxCh_pos (n : Fin 10) : 0 < maxCh n := by fin_cases n <;> decide

theorem env02_spec {s : Sys} (hst : s.st0 < 600) (h0 : s.r0 = R02red s.st0)
    (h1 : s.r1 = R02grn s.st0) (h2 : s.r2 = R02blu s.st0) :
    (calc_CH_0_TO_2 s).st0 = (s.st0 + 1) % 600 ∧
    (calc_CH_0_TO_2 s).r0 = R02red ((s.st0 + 1) % 600) ∧
    (calc_CH_0_TO_2 s).r1 = R02grn ((s.st0 + 1) % 600) ∧
    (calc_CH_0_TO_2 s).r2 = R02blu ((s.st0 + 1) % 600) := by
  have key := step02 s.st0 hst
  rw [← h0, ← h1, ← h2] at key
  exact ⟨congrArg (fun y => y.1) key, congrArg (fun y => y.2.1) key,
    congrArg (fun y => y.2.2.1) key, congrArg (fun y => y.2.2.2) key⟩

theorem env35_spec {s : Sys} (hst : s.st3 < 600) (h0 : s.r3 = R02red s.st3)
    (h1 : s.r4 = R02grn s.st3) (h2 : s.r5 = R02blu s.st3) :
    (calc_CH_3_TO_5 s).st3 = (s.st3 + 1) % 600 ∧
    (calc_CH_3_TO_5 s).r3 = R02red ((s.st3 + 1) % 600) ∧
    (calc_CH_3_TO_5 s).r4 = R02grn ((s.st3 + 1) % 600) ∧
    (calc_CH_3_TO_5 s).r5 = R02blu ((s.st3 + 1) % 600) := by
  have key := step35 s.st3 hst
  rw [← h0, ← h1, ← h2] at key
  exact ⟨congrArg (fun y => y.1) key, congrArg (fun y => y.2.1) key,
    congrArg (fun y => y.2.2.1) key, congrArg (fun y => y.2.2.2) key⟩

theorem env67_spec {s : Sys} (hst : s.st6 < 200) (h0 : s.r6 = R67red s.st6)
    (h1 : s.r7 = R67grn s.st6) :
    (calc_CH_6_TO_7 s).st6 = (s.st6 + 1) % 200 ∧
    (calc_CH_6_TO_7 s).r6 = R67red ((s.st6 + 1) % 200) ∧
    (calc_CH_6_TO_7 s).r7 = R67grn ((s.st6 + 1) % 200) := by
  have key := step67 s.st6 hst
  rw [← h0, ← h1] at key
  exact ⟨congrArg (fun y => y.1) key, congrArg (fun y => y.2.1) key,
    congrArg (fun y => y.2.2) key⟩

theorem env89_spec {s : Sys} (hst : s.st8 < 600) (h0 : s.r8 = R89red s.st8)
    (h1 : s.r9 = R89grn s.st8) :
    (calc_CH_8_TO_9 s).st8 = (s.st8 + 1) % 600 ∧
    (calc_CH_8_TO_9 s).r8 = R89red ((s.st8 + 1) % 600) ∧
    (calc_CH_8_TO_9 s).r9 = R89grn ((s.st8 + 1) % 600) := by
  have key := step89 s.st8 hst
  rw [← h0, ← h1] at key
  exact ⟨congrArg (fun y => y.1) key, congrArg (fun y => y.2.1) key,
    congrArg (fun y => y.2.2) key⟩

theorem sumOf_adv02 (s : Sys) (m : Fin 10) : sumOf (calc_CH_0_TO_2 s) m = sumOf s m := by
  fin_cases m <;> rfl

theorem sumOf_adv35 (s : Sys) (m : Fin 10) : sumOf (calc_CH_3_TO_5 s) m = sumOf s m := by
  fin_cases m <;> rfl

theorem sumOf_adv67 (s : Sys) (m : Fin 10) : sumOf (calc_CH_6_TO_7 s) m = sumOf s m := by
  fin_cases m <;> rfl

theorem sumOf_adv89 (s : Sys) (m : Fin 10) : sumOf (calc_CH_8_TO_9 s) m = sumOf s m := by
  fin_cases m <;> rfl

theorem sumOf_setIntCnt (s : Sys) (c : Nat) (m : Fin 10) :
    sumOf { s with intCnt := c } m = sumOf s m := by
  fin_cases m <;> rfl

theorem inv_req_le {s : Sys} (h : Inv s) (n : Fin 10) : reqOf s n ≤ maxCh n := by
  obtain ⟨a1, a2, a3, a4, b1, b2, b3, b4, c1, c2, c3, d1, d2, d3, hs⟩ := h
  fin_cases n
  · show s.r0 ≤ MAX_CH_0_2
    rw [a2]; exact R02red_le s.st0
  · show s.r1 ≤ MAX_CH_0_2
    rw [a3]; exact R02grn_le s.st0
  · show s.r2 ≤ MAX_CH_0_2
    rw [a4]; exact R02blu_le s.st0
  · show s.r3 ≤ MAX_CH_3_5
    rw [b2]; exact R02red_le s.st3
  · show s.r4 ≤ MAX_CH_3_5
    rw [b3]; exact R02grn_le s.st3
  · show s.r5 ≤ MAX_CH_3_5
    rw [b4]; exact R02blu_le s.st3
  · show s.r6 ≤ MAX_CH_6_7
    rw [c2]; exact R67red_le s.st6
  · show s.r7 ≤ MAX_CH_6_7
    rw [c3]; exact R67grn_le s.st6
  · show s.r8 ≤ MAX_CH_8_9
    rw [d2]; exact R89red_le s.st8
  · show s.r9 ≤ MAX_CH_8_9
    rw [d3]; exact R89grn_le s.st8

theorem inv_adv02 {s : Sys} (h : Inv s) : Inv (calc_CH_0_TO_2 s) := by
  obtain ⟨a1, a2, a3, a4, b1, b2, b3, b4, c1, c2, c3, d1, d2, d3, hs⟩ := h
  obtain ⟨e1, e2, e3, e4⟩ := env02_spec a1 a2 a3 a4
  refine ⟨?_, ?_, ?_, ?_, ?_, ?_, ?_, ?_, ?_, ?_, ?_, ?_, ?_, ?_, ?_⟩
  · rw [e1]; exact Nat.mod_lt _ (by norm_num)
  · rw [e1, e2]
  · rw [e1, e3]
  · rw [e1, e4]
  · exact b1
  · exact b2
  · exact b3
  · exact b4
  · exact c1
  · exact c2
  · exact c3
  · exact d1
  · exact d2
  · exact d3
  · intro n; rw [sumOf_adv02]; exact hs n

theorem inv_adv35 {s : Sys} (h : Inv s) : Inv (calc_CH_3_TO_5 s) := by
  obtain ⟨a1, a2, a3, a4, b1, b2, b3, b4, c1, c2, c3, d1, d2, d3, hs⟩ := h
  obtain ⟨e1, e2, e3, e4⟩ := env35_spec b1 b2 b3 b4
  refine ⟨?_, ?_, ?_, ?_, ?_, ?_, ?_, ?_, ?_, ?_, ?_, ?_, ?_, ?_, ?_⟩
  · exact a1
  · exact a2
  · exact a3
  · exact a4
  · rw [e1]; exact Nat.mod_lt _ (by norm_num)
  · rw [e1, e2]
  · rw [e1, e3]
  · rw [e1, e4]
  · exact c1
  · exact c2
  · exact c3
  · exact d1
  · exact d2
  · exact d3
  · intro n; rw [sumOf_adv35]; exact hs n

theorem inv_adv67 {s : Sys} (h : Inv s) : Inv (calc_CH_6_TO_7 s) := by
  obtain ⟨a1, a2, a3, a4, b1, b2, b3, b4, c1, c2, c3, d1, d2, d3, hs⟩ := h
  obtain ⟨e1, e2, e3⟩ := env67_spec c1 c2 c3
  refine ⟨?_, ?_, ?_, ?_, ?_, ?_, ?_, ?_, ?_, ?_, ?_, ?_, ?_, ?_, ?_⟩
  · exact a1
  · exact a2
  · exact a3
  · exact a4
  · exact b1
  · exact b2
  · exact b3
  · exact b4
  · rw [e1]; exact Nat.mod_lt _ (by norm_num)
  · rw [e1, e2]
  · rw [e1, e3]
  · exact d1
  · exact d2
  · exact d3
  · intro n; rw [sumOf_adv67]; exact hs n

theorem inv_adv89 {s : Sys} (h : Inv s) : Inv (calc_CH_8_TO_9 s) := by
  obtain ⟨a1, a2, a3, a4, b1, b2, b3, b4, c1, c2, c3, d1, d2, d3, hs⟩ := h
  obtain ⟨e1, e2, e3⟩ := env89_spec d1 d2 d3
  refine ⟨?_, ?_, ?_, ?_, ?_, ?_, ?_, ?_, ?_, ?_, ?_, ?_, ?_, ?_, ?_⟩
  · exact a1
  · exact a2
  · exact a3
  · exact a4
  · exact b1
  · exact b2
  · exact b3
  · exact b4
  · exact c1
  · exact c2
  · exact c3
  · rw [e1]; exact Nat.mod_lt _ (by norm_num)
  · rw [e1, e2]
  · rw [e1, e3]
  · intro n; rw [sumOf_adv89]; exact hs n

theorem inv_modStep {s : Sys} (h : Inv s) : Inv (calc_output_bits s) := by
  have hreq := inv_req_le h
  obtain ⟨p1, p2, p3, p4, p5, p6, p7, p8, p9, p10, p11, p12, p13, p14, p15⟩ :=
    calc_output_bits_pres s
  obtain ⟨a1, a2, a3, a4, b1, b2, b3, b4, c1, c2, c3, d1, d2, d3, hs⟩ := h
  refine ⟨?_, ?_, ?_, ?_, ?_, ?_, ?_, ?_, ?_, ?_, ?_, ?_, ?_, ?_, ?_⟩
  · rw [p11]; exact a1
  · rw [p1, p11]; exact a2
  · rw [p2, p11]; exact a3
  · rw [p3, p11]; exact a4
  · rw [p12]; exact b1
  · rw [p4, p12]; exact b2
  · rw [p5, p12]; exact b3
  · rw [p6, p12]; exact b4
  · rw [p13]; exact c1
  · rw [p7, p13]; exact c2
  · rw [p8, p13]; exact c3
  · rw [p14]; exact d1
  · rw [p9, p14]; exact d2
  · rw [p10, p14]; exact d3
  · intro n
    rw [calc_output_bits_sum]
    have h1 := hs n
    have h2 := hreq n
    have h3 := maxCh_le n
    have h4 : (sumOf s n + reqOf s n) % UINT_MOD = sumOf s n + reqOf s n := by
      apply Nat.mod_eq_of_lt
      show sumOf s n + reqOf s n < 65536
      omega
    rw [h4]
    split_ifs with h5
    · exact h5
    · omega

theorem inv_setIntCnt {s : Sys} (c : Nat) (h : Inv s) : Inv { s with intCnt := c } := by
  obtain ⟨a1, a2, a3, a4, b1, b2, b3, b4, c1, c2, c3, d1, d2, d3, hs⟩ := h
  exact ⟨a1, a2, a3, a4, b1, b2, b3, b4, c1, c2, c3, d1, d2, d3,
    fun n => (sumOf_setIntCnt s c n).symm ▸ hs n⟩

theorem inv_tick {s : Sys} (h : Inv s) : Inv (tick s) := by
  unfold tick
  split
  · exact inv_modStep (inv_adv89 (inv_adv67 (inv_adv35 (inv_adv02 (inv_setIntCnt 0 h)))))
  · exact inv_modStep (inv_setIntCnt (s.intCnt + 1) h)

theorem inv_init : Inv initSys := by
  unfold Inv
  refine ⟨?_, ?_, ?_, ?_, ?_, ?_, ?_, ?_, ?_, ?_, ?_, ?_, ?_, ?_, ?_⟩ <;> decide

theorem reachable_inv {s : Sys} (h : Reachable s) : Inv s := by
  induction h with
  | init => exact inv_init
  | adv02 _ ih => exact inv_adv02 ih
  | adv35 _ ih => exact inv_adv35 ih
  | adv67 _ ih => exact inv_adv67 ih
  | adv89 _ ih => exact inv_adv89 ih
  | modStep _ ih => exact inv_modStep ih
  | loop _ ih => exact inv_tick ih


theorem dsOnes_spec (maxv rq : Nat) (hr : rq ≤ maxv) (hm : 2 * maxv ≤ UINT_MOD) :
    ∀ (k acc : Nat), acc < maxv →
      (dsOnes maxv rq acc k).1 ≤ k ∧
      (dsOnes maxv rq acc k).2 < maxv ∧
      acc + k * rq = (k - (dsOnes maxv rq acc k).1) * maxv + (dsOnes maxv rq acc k).2 := by
  intro k
  induction k with
  | zero =>
    intro acc h
    exact ⟨Nat.le_refl 0, h, by simp [dsOnes]⟩
  | succ k ih =>
    intro acc h
    have hmod : (acc + rq) % UINT_MOD = acc + rq := by
      apply Nat.mod_eq_of_lt
      omega
    by_cases hlt : acc + rq < maxv
    · have hb : dsStep maxv rq acc = (true, acc + rq) := by
        simp [dsStep, hmod, hlt]
      have hrec : dsOnes maxv rq acc (k + 1) =
          (1 + (dsOnes maxv rq (acc + rq) k).1, (dsOnes maxv rq (acc + rq) k).2) := by
        simp [dsOnes, hb]
      obtain ⟨i1, i2, i3⟩ := ih (acc + rq) hlt
      rw [hrec]
      refine ⟨by omega, i2, ?_⟩
      have hsub : k + 1 - (1 + (dsOnes maxv rq (acc + rq) k).1) =
          k - (dsOnes maxv rq (acc + rq) k).1 := by omega
      simp only [hsub]
      have hmul : (k + 1) * rq = k * rq + rq := by ring
      omega
    · have hge : maxv ≤ acc + rq := Nat.le_of_not_lt hlt
      have hb : dsStep maxv rq acc = (false, acc + rq - maxv) := by
        simp [dsStep, hmod, hlt]
      have hrec : dsOnes maxv rq acc (k + 1) =
          ((dsOnes maxv rq (acc + rq - maxv) k).1, (dsOnes maxv rq (acc + rq - maxv) k).2) := by
        simp [dsOnes, hb]
      have hacc : acc + rq - maxv < maxv := by omega
      obtain ⟨i1, i2, i3⟩ := ih (acc + rq - maxv) hacc
      rw [hrec]
      refine ⟨by omega, i2, ?_⟩
      have hsub : k + 1 - (dsOnes maxv rq (acc + rq - maxv) k).1 =
          (k - (dsOnes maxv rq (acc + rq - maxv) k).1) + 1 := by omega
      simp only [hsub]
      have hmul : (k + 1) * rq = k * rq + rq := by ring
      have hmul2 : ((k - (dsOnes maxv rq (acc + rq - maxv) k).1) + 1) * maxv =
          (k - (dsOnes maxv rq (acc + rq - maxv) k).1) * maxv + maxv := by ring
      omega

theorem dsOnes_window (maxv rq : Nat) (hpos : 0 < maxv) (hr : rq ≤ maxv)
    (hm : 2 * maxv ≤ UINT_MOD) : dsOnes maxv rq 0 maxv = (maxv - rq, 0) := by
  obtain ⟨h1, h2, h3⟩ := dsOnes_spec maxv rq hr hm maxv 0 hpos
  set o := (dsOnes maxv rq 0 maxv).1 with ho
  set a := (dsOnes maxv rq 0 maxv).2 with ha
  have hdvd : maxv ∣ a := by
    have d1 : maxv ∣ maxv * rq := dvd_mul_right maxv rq
    have d2 : maxv ∣ (maxv - o) * maxv := dvd_mul_left maxv (maxv - o)
    have he : a = maxv * rq - (maxv - o) * maxv := by omega
    rw [he]
    exact Nat.dvd_sub' d1 d2
  have ha0 : a = 0 := Nat.eq_zero_of_dvd_of_lt hdvd h2
  have he2 : maxv * rq = maxv * (maxv - o) := by
    have : (maxv - o) * maxv = maxv * (maxv - o) := by ring
    omega
  have he3 : rq = maxv - o := Nat.eq_of_mul_eq_mul_left hpos he2
  have ho2 : o = maxv - rq := by omega
  rw [ho, ha] at *
  exact Prod.ext ho2 ha0

theorem iterTraj02 : ∀ (k p : Nat), p < 600 →
    calc_CH_0_TO_2_core^[k] (p, R02red p, R02grn p, R02blu p) =
      ((p + k) % 600, R02red ((p + k) % 600), R02grn ((p + k) % 600),
        R02blu ((p + k) % 600)) := by
  intro k
  induction k with
  | zero =>
    intro p hp
    simp [Nat.mod_eq_of_lt hp]
  | succ k ih =>
    intro p hp
    rw [Function.iterate_succ_apply, step02 p hp,
      ih ((p + 1) % 600) (Nat.mod_lt _ (by norm_num))]
    have hc : ((p + 1) % 600 + k) % 600 = (p + (k + 1)) % 600 := by omega
    rw [hc]

theorem iterTraj35 : ∀ (k p : Nat), p < 600 →
    calc_CH_3_TO_5_core^[k] (p, R02red p, R02grn p, R02blu p) =
      ((p + k) % 600, R02red ((p + k) % 600), R02grn ((p + k) % 600),
        R02blu ((p + k) % 600)) := by
  intro k
  induction k with
  | zero =>
    intro p hp
    simp [Nat.mod_eq_of_lt hp]
  | succ k ih =>
    intro p hp
    rw [Function.iterate_succ_apply, step35 p hp,
      ih ((p + 1) % 600) (Nat.mod_lt _ (by norm_num))]
    have hc : ((p + 1) % 600 + k) % 600 = (p + (k + 1)) % 600 := by omega
    rw [hc]

theorem iterTraj67 : ∀ (k p : Nat), p < 200 →
    calc_CH_6_TO_7_core^[k] (p, R67red p, R67grn p) =
      ((p + k) % 200, R67red ((p + k) % 200), R67grn ((p + k) % 200)) := by
  intro k
  induction k with
  | zero =>
    intro p hp
    simp [Nat.mod_eq_of_lt hp]
  | succ k ih =>
    intro p hp
    rw [Function.iterate_succ_apply, step67 p hp,
      ih ((p + 1) % 200) (Nat.mod_lt _ (by norm_num))]
    have hc : ((p + 1) % 200 + k) % 200 = (p + (k + 1)) % 200 := by omega
    rw [hc]

theorem iterTraj89 : ∀ (k p : Nat), p < 600 →
    calc_CH_8_TO_9_core^[k] (p, R89red p, R89grn p) =
      ((p + k) % 600, R89red ((p + k) % 600), R89grn ((p + k) % 600)) := by
  intro k
  induction k with
  | zero =>
    intro p hp
    simp [Nat.mod_eq_of_lt hp]
  | succ k ih =>
    intro p hp
    rw [Function.iterate_succ_apply, step89 p hp,
      ih ((p + 1) % 600) (Nat.mod_lt _ (by norm_num))]
    have hc : ((p + 1) % 600 + k) % 600 = (p + (k + 1)) % 600 := by omega
    rw [hc]

theorem calc_output_bits_intCnt (s : Sys) : (calc_output_bits s).intCnt = s.intCnt := by
  obtain ⟨e1, e2, e3, e4, e5, e6, e7, e8, e9, e10, e11, e12, e13, e14, e15⟩ :=
    calc_output_bits_pres s
  exact e15

theorem tick_intCnt (s : Sys) : (tick s).intCnt = cstep s.intCnt := by
  unfold tick cstep
  split_ifs
  · rw [calc_output_bits_intCnt]
    rfl
  · rw [calc_output_bits_intCnt]

theorem tick_iter_intCnt : ∀ k : Nat, (tick^[k] initSys).intCnt = cIter k := by
  intro k
  induction k with
  | zero => rfl
  | succ k ih =>
    rw [Function.iterate_succ_apply', tick_intCnt, ih]
    rfl

theorem land64 : ∀ x : Nat, x < 65 → (x &&& 64 ≠ 0 ↔ x = 64) := by decide

theorem cIter_mod : ∀ k : Nat, cIter k = k % 64 := by
  intro k
  induction k with
  | zero => rfl
  | succ k ih =>
    show cstep (cIter k) = (k + 1) % 64
    rw [ih]
    unfold cstep
    have hls : (1 <<< LOOP_SPEED) = 64 := rfl
    rw [hls]
    have h1 : k % 64 < 64 := Nat.mod_lt _ (by norm_num)
    rcases Nat.lt_or_ge (k % 64) 63 with h2 | h2
    · have hc : ¬((k % 64 + 1) &&& 64 ≠ 0) := by
        intro hx
        have hxx := (land64 (k % 64 + 1) (by omega)).mp hx
        omega
      rw [if_neg hc]
      omega
    · have h3 : k % 64 = 63 := by omega
      have hc : (k % 64 + 1) &&& 64 ≠ 0 := by
        rw [h3]
        decide
      rw [if_pos hc]
      omega


theorem reqOf_setIntCnt (s : Sys) (c : Nat) (n : Fin 10) :
    reqOf { s with intCnt := c } n = reqOf s n := by
  fin_cases n <;> rfl

theorem adv_chain_intCnt (s : Sys) (c : Nat) :
    calc_CH_8_TO_9 (calc_CH_6_TO_7 (calc_CH_3_TO_5 (calc_CH_0_TO_2 { s with intCnt := c }))) =
      { calc_CH_8_TO_9 (calc_CH_6_TO_7 (calc_CH_3_TO_5 (calc_CH_0_TO_2 s))) with
          intCnt := c } := by
  cases s
  rfl

/-- Claim C1 counterexample: at the claim's own example (resolution 100,
requested level 25, accumulator 0), 100 modulator steps emit 75 one-bits,
not 25; the accumulator does return to 0. -/
theorem C1_counterexample :
    dsOnes 100 25 0 100 = (75, 0) ∧ (dsOnes 100 25 0 100).1 ≠ 25 := by
  constructor
  · decide
  · decide

/-- Claim C1 (amended): with the requested level held constant at r
(0 <= r <= resolution) and the accumulator starting at 0, a window of
resolution consecutive modulator steps emits exactly resolution - r
one-bits (not r as claimed), and the accumulator returns to 0. -/
theorem C1_amended (maxv rq : Nat) (hpos : 0 < maxv) (hr : rq ≤ maxv)
    (hm : 2 * maxv ≤ UINT_MOD) : dsOnes maxv rq 0 maxv = (maxv - rq, 0) :=
  dsOnes_window maxv rq hpos hr hm

/-- Witness for the amended claim C1 at resolution 100, level 25. -/
theorem C1_witness :
    0 < 100 ∧ 25 ≤ 100 ∧ 2 * 100 ≤ UINT_MOD ∧ dsOnes 100 25 0 100 = (100 - 25, 0) :=
  ⟨by decide, by decide, by decide, C1_amended 100 25 (by decide) (by decide) (by decide)⟩

/-- Claim C2: in every reachable state, immediately after a
calc_output_bits step every accumulator satisfies 0 <= sum < resolution. -/
theorem C2_bounded {s : Sys} (h : Reachable s) (n : Fin 10) :
    0 ≤ sumOf (calc_output_bits s) n ∧ sumOf (calc_output_bits s) n < maxCh n := by
  have hi := inv_modStep (reachable_inv h)
  obtain ⟨_, _, _, _, _, _, _, _, _, _, _, _, _, _, hs⟩ := hi
  exact ⟨Nat.zero_le _, hs n⟩

/-- Witness for claim C2 at the start-up state, channel 0. -/
theorem C2_witness :
    0 ≤ sumOf (calc_output_bits initSys) 0 ∧
    sumOf (calc_output_bits initSys) 0 < maxCh 0 :=
  C2_bounded Reachable.init 0

/-- Claim C3: with the requested level held constant at r
(0 <= r <= resolution) and the accumulator starting at 0, a window of
resolution consecutive modulator steps emits exactly resolution - r
one-bits, equivalently exactly r zero-bits, and the accumulator returns
to 0 at the end of the window. -/
theorem C3_window (maxv rq : Nat) (hpos : 0 < maxv) (hr : rq ≤ maxv)
    (hm : 2 * maxv ≤ UINT_MOD) :
    (dsOnes maxv rq 0 maxv).1 = maxv - rq ∧
    maxv - (dsOnes maxv rq 0 maxv).1 = rq ∧
    (dsOnes maxv rq 0 maxv).2 = 0 := by
  have h := dsOnes_window maxv rq hpos hr hm
  rw [h]
  exact ⟨rfl, by omega, rfl⟩

/-- Witness for claim C3 at resolution 150, level 100 (channels 8-9). -/
theorem C3_witness :
    0 < 150 ∧ 100 ≤ 150 ∧ 2 * 150 ≤ UINT_MOD ∧
    ((dsOnes 150 100 0 150).1 = 150 - 100 ∧
     150 - (dsOnes 150 100 0 150).1 = 100 ∧ (dsOnes 150 100 0 150).2 = 0) :=
  ⟨by decide, by decide, by decide, C3_window 150 100 (by decide) (by decide) (by decide)⟩

/-- Claim C5: in every state reachable from start-up by any interleaving
of envelope advances and modulator steps, every requested level satisfies
0 <= req <= resolution; the 8-bit req storage never wraps around. -/
theorem C5_req_bounds {s : Sys} (h : Reachable s) (n : Fin 10) :
    0 ≤ reqOf s n ∧ reqOf s n ≤ maxCh n :=
  ⟨Nat.zero_le _, inv_req_le (reachable_inv h) n⟩

/-- Witness for claim C5 at the start-up state, channel 0. -/
theorem C5_witness : 0 ≤ reqOf initSys 0 ∧ reqOf initSys 0 ≤ maxCh 0 :=
  C5_req_bounds Reachable.init 0


/-- Claim C4: for every envelope group, exactly total_segments *
segment_length advance calls (600 for the two 3-channel groups with 6
segments of 100 steps, 200 for the 2-channel group with 4 segments of 50
steps, 600 for the 2-channel group with 4 segments of 150 steps) return
the phase counter and every member requested level to their exact values,
from the configured start and from any later point of the cycle; in
particular the 3-channel group with resolution 200, increment 2, starting
levels (200,0,0) returns to (200,0,0) after 600 calls. -/
theorem C4_closure : ∀ k : Nat,
    calc_CH_0_TO_2_core^[k + 6 * STEPS_CH_0_2] (0, MAX_CH_0_2, 0, 0) =
      calc_CH_0_TO_2_core^[k] (0, MAX_CH_0_2, 0, 0) ∧
    calc_CH_3_TO_5_core^[k + 6 * STEPS_CH_3_5] (3 * STEPS_CH_3_5, 0, MAX_CH_3_5, MAX_CH_3_5) =
      calc_CH_3_TO_5_core^[k] (3 * STEPS_CH_3_5, 0, MAX_CH_3_5, MAX_CH_3_5) ∧
    calc_CH_6_TO_7_core^[k + 4 * STEPS_CH_6_7] (0, 0, 0) =
      calc_CH_6_TO_7_core^[k] (0, 0, 0) ∧
    calc_CH_8_TO_9_core^[k + 4 * STEPS_CH_8_9] (2 * STEPS_CH_8_9, MAX_CH_8_9, MAX_CH_8_9) =
      calc_CH_8_TO_9_core^[k] (2 * STEPS_CH_8_9, MAX_CH_8_9, MAX_CH_8_9) := by
  intro k
  refine ⟨?_, ?_, ?_, ?_⟩
  · have e : ((0 : Nat), (MAX_CH_0_2 : Nat), (0 : Nat), (0 : Nat)) =
        ((0 : Nat), R02red 0, R02grn 0, R02blu 0) := by decide
    rw [e, iterTraj02 (k + 6 * STEPS_CH_0_2) 0 (by norm_num),
      iterTraj02 k 0 (by norm_num)]
    have h6 : 6 * STEPS_CH_0_2 = 600 := rfl
    have hmod : (0 + (k + 6 * STEPS_CH_0_2)) % 600 = (0 + k) % 600 := by omega
    rw [hmod]
  · have e : ((3 * STEPS_CH_3_5 : Nat), (0 : Nat), (MAX_CH_3_5 : Nat), (MAX_CH_3_5 : Nat)) =
        ((300 : Nat), R02red 300, R02grn 300, R02blu 300) := by decide
    rw [e, iterTraj35 (k + 6 * STEPS_CH_3_5) 300 (by norm_num),
      iterTraj35 k 300 (by norm_num)]
    have h6 : 6 * STEPS_CH_3_5 = 600 := rfl
    have hmod : (300 + (k + 6 * STEPS_CH_3_5)) % 600 = (300 + k) % 600 := by omega
    rw [hmod]
  · have e : ((0 : Nat), (0 : Nat), (0 : Nat)) = ((0 : Nat), R67red 0, R67grn 0) := by decide
    rw [e, iterTraj67 (k + 4 * STEPS_CH_6_7) 0 (by norm_num),
      iterTraj67 k 0 (by norm_num)]
    have h4 : 4 * STEPS_CH_6_7 = 200 := rfl
    have hmod : (0 + (k + 4 * STEPS_CH_6_7)) % 200 = (0 + k) % 200 := by omega
    rw [hmod]
  · have e : ((2 * STEPS_CH_8_9 : Nat), (MAX_CH_8_9 : Nat), (MAX_CH_8_9 : Nat)) =
        ((300 : Nat), R89red 300, R89grn 300) := by decide
    rw [e, iterTraj89 (k + 4 * STEPS_CH_8_9) 300 (by norm_num),
      iterTraj89 k 300 (by norm_num)]
    have h4 : 4 * STEPS_CH_8_9 = 600 := rfl
    have hmod : (300 + (k + 4 * STEPS_CH_8_9)) % 600 = (300 + k) % 600 := by omega
    rw [hmod]

/-- Claim C6 counterexample: starting from a tick counter of 0, the
envelope-advance bit-test fires twice within the first 2^(K+1) = 128
ticks (at ticks 64 and 128), refuting the claimed once-per-2^(K+1)
cadence; the actual cadence is once per 2^K = 64 ticks. -/
theorem C6_counterexample :
    ((List.range 128).countP
      (fun k => ((tick^[k] initSys).intCnt + 1) &&& (1 <<< LOOP_SPEED) != 0)) = 2 := by
  have hfe : (fun k => ((tick^[k] initSys).intCnt + 1) &&& (1 <<< LOOP_SPEED) != 0) =
      (fun k => (k % 64 + 1) &&& 64 != 0) := by
    funext k
    rw [tick_iter_intCnt k, cIter_mod k]
    rfl
  rw [hfe]
  decide

/-- Claim C6 (amended): starting from a tick counter of 0, the
orchestrator invokes the envelope sequencers exactly once per 2^K ticks
(K = LOOP_SPEED = 6), namely on the ticks on which the incremented
counter has bit K set, which from a zero start means it equals 2^K, after
which the counter resets to 0: the counter after k ticks is k mod 2^K,
and the advance branch is taken on tick k+1 iff 2^K divides k+1. -/
theorem C6_amended : ∀ k : Nat,
    ((((tick^[k] initSys).intCnt + 1) &&& (1 <<< LOOP_SPEED) ≠ 0) ↔
      (k + 1) % 2 ^ LOOP_SPEED = 0) ∧
    (tick^[k] initSys).intCnt = k % 2 ^ LOOP_SPEED := by
  intro k
  rw [tick_iter_intCnt k, cIter_mod k]
  have hp : (2 : Nat) ^ LOOP_SPEED = 64 := rfl
  have hls : (1 <<< LOOP_SPEED) = 64 := rfl
  rw [hp, hls]
  constructor
  · have h1 : k % 64 < 64 := Nat.mod_lt _ (by norm_num)
    rw [land64 (k % 64 + 1) (by omega)]
    omega
  · rfl

/-- Claim C7: on every tick, the envelope stage completes strictly before
the modulator step of that same tick: the post-tick accumulators are the
modulator update of the pre-tick accumulators with the post-envelope
requested levels, whether or not the envelope fired (so the modulator
runs on every tick and an envelope change is reflected in the very next
output-bit computation), and the post-tick requested levels are exactly
the post-envelope ones. -/
theorem C7_order (s : Sys) :
    (∀ n : Fin 10, sumOf (tick s) n =
      (if (sumOf s n + reqOf (envStage s) n) % UINT_MOD < maxCh n
       then (sumOf s n + reqOf (envStage s) n) % UINT_MOD
       else (sumOf s n + reqOf (envStage s) n) % UINT_MOD - maxCh n)) ∧
    (∀ n : Fin 10, reqOf (tick s) n = reqOf (envStage s) n) := by
  unfold tick envStage
  split_ifs
  · constructor
    · intro n
      rw [calc_output_bits_sum, adv_chain_intCnt, sumOf_setIntCnt, reqOf_setIntCnt,
        sumOf_adv89, sumOf_adv67, sumOf_adv35, sumOf_adv02]
    · intro n
      rw [presEq_reqOf (calc_output_bits_pres _) n, adv_chain_intCnt, reqOf_setIntCnt]
  · constructor
    · intro n
      rw [calc_output_bits_sum, sumOf_setIntCnt, reqOf_setIntCnt]
    · intro n
      rw [presEq_reqOf (calc_output_bits_pres _) n, reqOf_setIntCnt]


/-- Claim C8: for every envelope group, a single advance call changes at
most one member channel's requested level (the segments' phase ranges are
mutually exclusive), and when a level changes it is by exactly one
increment or one decrement (in the 8-bit req arithmetic), never twice. -/
theorem C8_at_most_one :
    (∀ p r0 r1 r2 : Nat,
      (((calc_CH_0_TO_2_core (p, r0, r1, r2)).2.1 = r0 ∧
        (calc_CH_0_TO_2_core (p, r0, r1, r2)).2.2.1 = r1) ∨
       ((calc_CH_0_TO_2_core (p, r0, r1, r2)).2.1 = r0 ∧
        (calc_CH_0_TO_2_core (p, r0, r1, r2)).2.2.2 = r2) ∨
       ((calc_CH_0_TO_2_core (p, r0, r1, r2)).2.2.1 = r1 ∧
        (calc_CH_0_TO_2_core (p, r0, r1, r2)).2.2.2 = r2)) ∧
      ((calc_CH_0_TO_2_core (p, r0, r1, r2)).2.1 = r0 ∨
       (calc_CH_0_TO_2_core (p, r0, r1, r2)).2.1 = (r0 + INC_CH_0_2) % UCHAR_MOD ∨
       (calc_CH_0_TO_2_core (p, r0, r1, r2)).2.1 = (r0 + (UCHAR_MOD - INC_CH_0_2)) % UCHAR_MOD) ∧
      ((calc_CH_0_TO_2_core (p, r0, r1, r2)).2.2.1 = r1 ∨
       (calc_CH_0_TO_2_core (p, r0, r1, r2)).2.2.1 = (r1 + INC_CH_0_2) % UCHAR_MOD ∨
       (calc_CH_0_TO_2_core (p, r0, r1, r2)).2.2.1 = (r1 + (UCHAR_MOD - INC_CH_0_2)) % UCHAR_MOD) ∧
      ((calc_CH_0_TO_2_core (p, r0, r1, r2)).2.2.2 = r2 ∨
       (calc_CH_0_TO_2_core (p, r0, r1, r2)).2.2.2 = (r2 + INC_CH_0_2) % UCHAR_MOD ∨
       (calc_CH_0_TO_2_core (p, r0, r1, r2)).2.2.2 = (r2 + (UCHAR_MOD - INC_CH_0_2)) % UCHAR_MOD)) ∧
    (∀ p r3 r4 r5 : Nat,
      (((calc_CH_3_TO_5_core (p, r3, r4, r5)).2.1 = r3 ∧
        (calc_CH_3_TO_5_core (p, r3, r4, r5)).2.2.1 = r4) ∨
       ((calc_CH_3_TO_5_core (p, r3, r4, r5)).2.1 = r3 ∧
        (calc_CH_3_TO_5_core (p, r3, r4, r5)).2.2.2 = r5) ∨
       ((calc_CH_3_TO_5_core (p, r3, r4, r5)).2.2.1 = r4 ∧
        (calc_CH_3_TO_5_core (p, r3, r4, r5)).2.2.2 = r5)) ∧
      ((calc_CH_3_TO_5_core (p, r3, r4, r5)).2.1 = r3 ∨
       (calc_CH_3_TO_5_core (p, r3, r4, r5)).2.1 = (r3 + INC_CH_3_5) % UCHAR_MOD ∨
       (calc_CH_3_TO_5_core (p, r3, r4, r5)).2.1 = (r3 + (UCHAR_MOD - INC_CH_3_5)) % UCHAR_MOD) ∧
      ((calc_CH_3_TO_5_core (p, r3, r4, r5)).2.2.1 = r4 ∨
       (calc_CH_3_TO_5_core (p, r3, r4, r5)).2.2.1 = (r4 + INC_CH_3_5) % UCHAR_MOD ∨
       (calc_CH_3_TO_5_core (p, r3, r4, r5)).2.2.1 = (r4 + (UCHAR_MOD - INC_CH_3_5)) % UCHAR_MOD) ∧
      ((calc_CH_3_TO_5_core (p, r3, r4, r5)).2.2.2 = r5 ∨
       (calc_CH_3_TO_5_core (p, r3, r4, r5)).2.2.2 = (r5 + INC_CH_3_5) % UCHAR_MOD ∨
       (calc_CH_3_TO_5_core (p, r3, r4, r5)).2.2.2 = (r5 + (UCHAR_MOD - INC_CH_3_5)) % UCHAR_MOD)) ∧
    (∀ p r6 r7 : Nat,
      ((calc_CH_6_TO_7_core (p, r6, r7)).2.1 = r6 ∨
       (calc_CH_6_TO_7_core (p, r6, r7)).2.2 = r7) ∧
      ((calc_CH_6_TO_7_core (p, r6, r7)).2.1 = r6 ∨
       (calc_CH_6_TO_7_core (p, r6, r7)).2.1 = (r6 + INC_CH_6_7) % UCHAR_MOD ∨
       (calc_CH_6_TO_7_core (p, r6, r7)).2.1 = (r6 + (UCHAR_MOD - INC_CH_6_7)) % UCHAR_MOD) ∧
      ((calc_CH_6_TO_7_core (p, r6, r7)).2.2 = r7 ∨
       (calc_CH_6_TO_7_core (p, r6, r7)).2.2 = (r7 + INC_CH_6_7) % UCHAR_MOD ∨
       (calc_CH_6_TO_7_core (p, r6, r7)).2.2 = (r7 + (UCHAR_MOD - INC_CH_6_7)) % UCHAR_MOD)) ∧
    (∀ p r8 r9 : Nat,
      ((calc_CH_8_TO_9_core (p, r8, r9)).2.1 = r8 ∨
       (calc_CH_8_TO_9_core (p, r8, r9)).2.2 = r9) ∧
      ((calc_CH_8_TO_9_core (p, r8, r9)).2.1 = r8 ∨
       (calc_CH_8_TO_9_core (p, r8, r9)).2.1 = (r8 + INC_CH_8_9) % UCHAR_MOD ∨
       (calc_CH_8_TO_9_core (p, r8, r9)).2.1 = (r8 + (UCHAR_MOD - INC_CH_8_9)) % UCHAR_MOD) ∧
      ((calc_CH_8_TO_9_core (p, r8, r9)).2.2 = r9 ∨
       (calc_CH_8_TO_9_core (p, r8, r9)).2.2 = (r9 + INC_CH_8_9) % UCHAR_MOD ∨
       (calc_CH_8_TO_9_core (p, r8, r9)).2.2 = (r9 + (UCHAR_MOD - INC_CH_8_9)) % UCHAR_MOD)) := by
  refine ⟨?_, ?_, ?_, ?_⟩
  · intro p r0 r1 r2
    simp only [calc_CH_0_TO_2_core, STEPS_CH_0_2, MAX_CH_0_2, INC_CH_0_2, UCHAR_MOD]
    split_ifs <;> omega
  · intro p r3 r4 r5
    simp only [calc_CH_3_TO_5_core, STEPS_CH_3_5, MAX_CH_3_5, INC_CH_3_5, UCHAR_MOD]
    split_ifs <;> omega
  · intro p r6 r7
    simp only [calc_CH_6_TO_7_core, STEPS_CH_6_7, MAX_CH_6_7, INC_CH_6_7, UCHAR_MOD]
    split_ifs <;> omega
  · intro p r8 r9
    simp only [calc_CH_8_TO_9_core, STEPS_CH_8_9, MAX_CH_8_9, INC_CH_8_9, UCHAR_MOD]
    split_ifs <;> omega

/-- Claim C10: from any pre-state satisfying the documented invariants,
one modulator pass transforms each channel independently by acc += req,
then output bit 1 if acc < resolution, else output bit 0 and
acc -= resolution; and stepping the channels in any permutation of the
loop order yields identical per-channel accumulators and identical
per-channel output bits. -/
theorem C10_step (s : Sys) (hreq : ∀ n : Fin 10, reqOf s n ≤ maxCh n)
    (hsum : ∀ n : Fin 10, sumOf s n < maxCh n) :
    (runB s chOrder).1 = calc_output_bits s ∧
    (∀ n : Fin 10,
      sumOf (calc_output_bits s) n =
        (if sumOf s n + reqOf s n < maxCh n then sumOf s n + reqOf s n
         else sumOf s n + reqOf s n - maxCh n) ∧
      (runB s chOrder).2 n = decide (sumOf s n + reqOf s n < maxCh n)) ∧
    (∀ l : List (Fin 10), l.Perm chOrder → ∀ n : Fin 10,
      sumOf (l.foldl chanStep s) n = sumOf (calc_output_bits s) n ∧
      (runB s l).2 n = (runB s chOrder).2 n) := by
  have hmod : ∀ n : Fin 10, (sumOf s n + reqOf s n) % UINT_MOD = sumOf s n + reqOf s n := by
    intro n
    apply Nat.mod_eq_of_lt
    have h1 := hsum n
    have h2 := hreq n
    have h3 := maxCh_le n
    show sumOf s n + reqOf s n < 65536
    omega
  refine ⟨foldlB_fst chOrder s (fun _ => false), ?_, ?_⟩
  · intro n
    constructor
    · rw [calc_output_bits_sum, hmod n]
    · have h := foldlB_bits_count_one chOrder s (fun _ => false) n (chOrder_count n)
      rw [hmod n] at h
      exact h
  · intro l hperm n
    have hcount : l.count n = 1 := by
      rw [hperm.count_eq n]
      exact chOrder_count n
    constructor
    · exact (foldl_sum_count_one l s n hcount).trans
        (foldl_sum_count_one chOrder s n (chOrder_count n)).symm
    · exact (foldlB_bits_count_one l s (fun _ => false) n hcount).trans
        (foldlB_bits_count_one chOrder s (fun _ => false) n (chOrder_count n)).symm

/-- Witness for claim C10 at the start-up state. -/
theorem C10_witness :
    (∀ n : Fin 10, reqOf initSys n ≤ maxCh n) ∧
    (∀ n : Fin 10, sumOf initSys n < maxCh n) ∧
    (runB initSys chOrder).1 = calc_output_bits initSys :=
  ⟨by decide, by decide, (C10_step initSys (by decide) (by decide)).1⟩

end DeltaSigma
